import Mathlib

/-!
Shallow embedding of the Raft peer core of this repository
(source file src/worker/raft/mod.rs) together with theorems checking the
natural-language specification against it.

Modelling conventions:
* Rust u32 / usize fields become Nat.  The only arithmetic the source
  performs on them is the term increment in start_new_election, where the
  release-mode u32 wrap-around is modelled by an explicit mod 2^32.
* The fjall partitions are modelled by their logical content: the raft_log
  partition is a list of entries (list position i holds the entry with
  on-disk key i+1, since keys are dense big-endian indices starting at 1),
  and the raft_restore partition holds an optional RaftSaved record.
* Every handler is a pure function from the pre-state and the message to
  an optional (post-state, event trace) pair.  Rust panics (assert!,
  debug_assert_eq!, the simulated crash) yield none.  The trace records,
  in program order, every in-memory write to (current_term, voted_for)
  (Event.setSaved), every durable flush (Event.persist, emitted by
  persist_state which syncs with PersistMode::SyncAll), every outbound
  message (Event.send) and the election-timer operations.
* The election_timer field of RaftState models Option::is_some of the
  timer sender; arming and re-arming both leave it set, as in the source.
* The process group (pg::get_scoped_members) is passed to the handlers as
  the explicit list pg of member names; the source skips entries whose
  actor id equals the worker's own id and identifies the vote requester
  by name, which is modelled by comparing names (names are unique).
-/

/-- Peer identifier, src: type PeerId = String. -/
abbrev PeerId := String

/-- Role played by the worker, src: enum RaftRole. -/
inductive RaftRole
  | follower
  | candidate
  | leader
deriving DecidableEq, Repr

/-- Snapshot shared with replication workers, src: struct RaftShared. -/
structure RaftShared where
  current_term : Nat
  commit_index : Nat
deriving DecidableEq, Repr

/-- Durable election state, src: struct RaftSaved (single key raft_saved of
the raft_restore partition). -/
structure RaftSaved where
  current_term : Nat
  voted_for : Option PeerId
deriving DecidableEq, Repr

/-- Value stored in the raft_log partition at one key: the key itself is the
dense index (8-byte big-endian, starting at 1), the value holds the term and
the opaque payload. -/
structure LogEntry where
  term : Nat
  payload : List Nat
deriving DecidableEq, Repr

/-- Message to the leader reporting replication progress,
src: struct TryAdvanceCommitIndexMsg. -/
structure TryAdvanceCommitIndexMsg where
  peer_id : Option PeerId
  match_index : Nat
deriving DecidableEq, Repr

/-- AppendEntries request, src: struct AppendEntriesAsk.  The source's
entries field has element type () (unit), faithfully kept here. -/
structure AppendEntriesAsk where
  term : Nat
  leader_id : PeerId
  prev_log_index : Nat
  prev_log_term : Nat
  entries : List Unit
  commit_index : Nat
deriving DecidableEq, Repr

/-- AppendEntries reply, src: struct AppendEntriesReply. -/
structure AppendEntriesReply where
  term : Nat
  success : Bool
deriving DecidableEq, Repr

/-- RequestVote request, src: struct RequestVoteAsk. -/
structure RequestVoteAsk where
  term : Nat
  candidate_name : PeerId
  last_log_index : Nat
  last_log_term : Nat
deriving DecidableEq, Repr

/-- RequestVote reply, src: struct RequestVoteReply. -/
structure RequestVoteReply where
  term : Nat
  vote_granted : Bool
  vote_from : PeerId
deriving DecidableEq, Repr

/-- Outbound messages a handler can emit. -/
inductive Msg
  | requestVote (dst : PeerId) (ask : RequestVoteAsk)
  | requestVoteReply (dst : PeerId) (reply : RequestVoteReply)
  | appendEntriesReply (reply : AppendEntriesReply)
  | notifyStateChange (dst : PeerId) (shared : RaftShared)
  | spawnReplicate (dst : PeerId) (shared : RaftShared)
deriving DecidableEq, Repr

/-- Observable events of a handler run, in program order. -/
inductive Event
  | setSaved (sv : RaftSaved)
  | persist (sv : RaftSaved)
  | send (m : Msg)
  | timerReset
  | timerCancel
deriving DecidableEq, Repr

/-- Peer state, src: struct RaftState.  The log field is the content of the
raft_log partition, self_id the worker's registered name, cluster_servers
the static config.init.cluster.servers list, election_timer the is_some
status of the timer sender and replicate_workers the names of the linked
replication workers. -/
structure RaftState where
  role : RaftRole
  current_term : Nat
  voted_for : Option PeerId
  leader_id : Option PeerId
  commit_index : Nat
  last_applied : Nat
  next_index : List (PeerId × Nat)
  match_index : List (PeerId × Nat)
  votes : List PeerId
  election_timer : Bool
  replicate_workers : List PeerId
  self_id : PeerId
  cluster_servers : List PeerId
  log : List LogEntry
deriving DecidableEq, Repr

/-- Ordered-map insert used for the BTreeMap fields: replaces the value of
an existing key, otherwise adds the binding. -/
def mapInsert (k : PeerId) (v : Nat) : List (PeerId × Nat) → List (PeerId × Nat)
  | [] => [(k, v)]
  | (k', v') :: rest => if k = k' then (k, v) :: rest else (k', v') :: mapInsert k v rest

/-- Ordered-set insert used for the BTreeSet votes field: at most one record
per peer, as the source documents. -/
def setInsert (x : PeerId) (l : List PeerId) : List PeerId :=
  if x ∈ l then l else x :: l

/-- Current in-memory value of the durable pair (current_term, voted_for). -/
def savedOf (s : RaftState) : RaftSaved :=
  ⟨s.current_term, s.voted_for⟩

/-- Flush of the durable pair, src: RaftState::persist_state.  The source
serializes RaftSaved, inserts it under key raft_saved and persists the
keyspace with PersistMode::SyncAll. -/
def persist_state (s : RaftState) : RaftState × List Event :=
  (s, [Event.persist (savedOf s)])

/-- Timer arming, src: RaftState::set_election_timer.  Re-arms the pending
timer or spawns a fresh one; either way a timer is pending afterwards.  The
uniformly random duration is abstracted away. -/
def set_election_timer (s : RaftState) : RaftState × List Event :=
  ({ s with election_timer := true }, [Event.timerReset])

/-- Timer cancellation, src: RaftState::unset_election_timer. -/
def unset_election_timer (s : RaftState) : RaftState :=
  { s with election_timer := false }

/-- Quorum match index, src: RaftState::min_quorum_match_index.  Collects
the values of the match_index map, sorts them ascending (sort_unstable) and
dereferences position (len - 1) / 2; returns 0 for an empty map. -/
def min_quorum_match_index (s : RaftState) : Nat :=
  if s.match_index.isEmpty then 0
  else
    let values := List.insertionSort (· ≤ ·) (s.match_index.map Prod.snd)
    values.getD ((values.length - 1) / 2) 0

/-- Vote quorum test, src: RaftState::voted_has_quorum.  Uses the length of
the static config.init.cluster.servers list, not the live process group. -/
def voted_has_quorum (s : RaftState) : Bool :=
  let cluster_size := s.cluster_servers.length
  if cluster_size = 1 then true
  else decide (s.votes.length ≥ cluster_size / 2 + 1)

/-- Zeroing of all match_index values, src: RaftState::reset_match_index. -/
def reset_match_index (s : RaftState) : RaftState :=
  { s with match_index := s.match_index.map (fun kv => (kv.1, 0)) }

/-- Broadcast of the fresh (current_term, commit_index) snapshot to every
replication worker, src: RaftState::notify_state_change. -/
def notify_state_change (s : RaftState) : List Event :=
  s.replicate_workers.map
    (fun w => Event.send (Msg.notifyStateChange w ⟨s.current_term, s.commit_index⟩))

/-- Spawn of one replication worker per remote process-group member,
src: RaftState::spawn_replicate_workers.  The source asserts that no worker
is alive yet; each spawned worker receives the RaftShared snapshot. -/
def spawn_replicate_workers (pg : List PeerId) (s : RaftState) :
    Option (RaftState × List Event) :=
  if s.replicate_workers = [] then
    let ws := pg.filter (fun p => p ≠ s.self_id)
    some ({ s with replicate_workers := ws },
      ws.map (fun w => Event.send (Msg.spawnReplicate w ⟨s.current_term, s.commit_index⟩)))
  else none

/-- Step down to follower, src: RaftState::step_down.  The source asserts
current_term <= new_term, persists only when the term advances, stops the
replication workers and re-arms the election timer when the worker was
leader or had no pending timer. -/
def step_down (s : RaftState) (new_term : Nat) : Option (RaftState × List Event) :=
  if s.current_term ≤ new_term then
    let was_leader := s.role = RaftRole.leader
    let (s1, ev1) :=
      if s.current_term < new_term then
        let s' := { s with current_term := new_term, leader_id := none, voted_for := none }
        (s', [Event.setSaved (savedOf s'), Event.persist (savedOf s')])
      else (s, [])
    let s2 := { s1 with role := RaftRole.follower, replicate_workers := [] }
    if was_leader ∨ s2.election_timer = false then
      let (s3, ev2) := set_election_timer s2
      some (s3, ev1 ++ ev2)
    else
      some (s2, ev1)
  else none

/-- Transition to leader, src: RaftState::become_leader.  The source asserts
the candidate role, cancels the timer, zeroes match_index and spawns the
replication workers. -/
def become_leader (pg : List PeerId) (s : RaftState) : Option (RaftState × List Event) :=
  if s.role = RaftRole.candidate then
    let s1 := unset_election_timer { s with role := RaftRole.leader }
    let s2 := reset_match_index s1
    match spawn_replicate_workers pg s2 with
    | none => none
    | some (s3, ev) => some (s3, Event.timerCancel :: ev)
  else none

/-- Vote solicitation broadcast, src: RaftState::request_vote.  Sent to every
process-group member other than the worker itself; the source hardcodes
last_log_index = 0 and last_log_term = 0. -/
def request_vote (pg : List PeerId) (s : RaftState) : List Event :=
  (pg.filter (fun p => p ≠ s.self_id)).map
    (fun p => Event.send (Msg.requestVote p ⟨s.current_term, s.self_id, 0, 0⟩))

/-- Election start, src: RaftState::start_new_election.  Increments the term
(u32, wrapping in release mode), becomes candidate, votes for itself,
persists, re-arms the timer, and either becomes leader at once (quorum of
one) or solicits votes. -/
def start_new_election (pg : List PeerId) (s : RaftState) :
    Option (RaftState × List Event) :=
  let s1 := { s with
    current_term := (s.current_term + 1) % 4294967296,
    role := RaftRole.candidate,
    leader_id := none }
  let s2 := { s1 with voted_for := some s1.self_id }
  let ev1 := [Event.setSaved (savedOf s2)]
  let (s3, ev2) := persist_state s2
  let s4 := { s3 with votes := setInsert s3.self_id [] }
  let (s5, ev3) := set_election_timer s4
  if voted_has_quorum s5 then
    match become_leader pg s5 with
    | none => none
    | some (s6, ev4) => some (s6, ev1 ++ ev2 ++ ev3 ++ ev4)
  else
    some (s5, ev1 ++ ev2 ++ ev3 ++ request_vote pg s5)

/-- Commit-index advancement, src: RaftState::try_advance_commit_index.  The
crash flag models the simulated-crash coin flip (gen_bool(1/10000)); a warn
and early return happens for non-leaders; the reported match index is
inserted; the commit index advances to min_quorum_match_index whenever that
exceeds it — the current-term guard of the Raft paper is a TODO in the
source and is not enforced. -/
def try_advance_commit_index (crash : Bool) (s : RaftState)
    (peer_info : TryAdvanceCommitIndexMsg) : Option (RaftState × List Event) :=
  if crash then none
  else if ¬ (s.role = RaftRole.leader) then some (s, [])
  else
    let s1 :=
      match peer_info.peer_id with
      | some peer_id => { s with match_index := mapInsert peer_id peer_info.match_index s.match_index }
      | none => s
    let new_commit_index := min_quorum_match_index s1
    if s1.commit_index ≥ new_commit_index then some (s1, [])
    else
      let s2 := { s1 with commit_index := new_commit_index }
      some (s2, notify_state_change s2)

/-- Vote-request handler, src: RaftState::handle_request_vote.  Steps down on
a higher term; grants (records and persists the vote) when the terms match
and no vote was cast; the source's log up-to-date check is a TODO and is not
enforced.  The reply goes to the process-group member named like the
candidate, carrying vote_granted = (voted_for == Some(candidate_name)). -/
def handle_request_vote (pg : List PeerId) (s : RaftState) (ask : RequestVoteAsk) :
    Option (RaftState × List Event) :=
  match (if ask.term > s.current_term then step_down s ask.term else some (s, [])) with
  | none => none
  | some (sA, ev1) =>
    match (if ask.term = sA.current_term ∧ sA.voted_for = none then
            match step_down sA sA.current_term with
            | none => none
            | some (sB, eva) =>
              let (sC, evb) := set_election_timer sB
              let sD := { sC with voted_for := some ask.candidate_name }
              let evc := [Event.setSaved (savedOf sD)]
              let (sE, evd) := persist_state sD
              some (sE, eva ++ evb ++ evc ++ evd)
          else some (sA, [])) with
    | none => none
    | some (sF, ev2) =>
      let ev3 :=
        if ask.candidate_name ∈ pg ∧ ask.candidate_name ≠ sF.self_id then
          [Event.send (Msg.requestVoteReply ask.candidate_name
            ⟨sF.current_term, decide (sF.voted_for = some ask.candidate_name), sF.self_id⟩)]
        else []
      some (sF, ev1 ++ ev2 ++ ev3)

/-- AppendEntries handler, src: RaftState::handle_append_entries.  A stale
term returns without sending anything (the reply port is dropped).
Otherwise the worker steps down to the request term, re-arms the timer,
adopts the leader (the source debug_asserts agreement with a previously
recorded leader, modelled as a failing run), re-arms the timer again and
replies success = true; the consistency check and the storing of entries
are TODOs in the source and do not happen. -/
def handle_append_entries (s : RaftState) (ask : AppendEntriesAsk) :
    Option (RaftState × List Event) :=
  if ask.term < s.current_term then
    some (s, [])
  else
    let respTerm := if ask.term > s.current_term then ask.term else s.current_term
    match step_down s ask.term with
    | none => none
    | some (sA, ev1) =>
      let (sB, ev2) := set_election_timer sA
      match (if sB.leader_id = none then some { sB with leader_id := some ask.leader_id }
             else if sB.leader_id = some ask.leader_id then some sB else none) with
      | none => none
      | some sC =>
        let (sD, ev3) := set_election_timer sC
        some (sD, ev1 ++ ev2 ++ ev3 ++ [Event.send (Msg.appendEntriesReply ⟨respTerm, true⟩)])

/-- Vote-reply handler, src: RaftState::received_vote.  Steps down on a
higher reply term; otherwise a granted vote is recorded (for candidates)
and may complete the election — the source does not compare the reply term
against the current term before counting. -/
def received_vote (pg : List PeerId) (s : RaftState) (reply : RequestVoteReply) :
    Option (RaftState × List Event) :=
  if reply.term > s.current_term then
    step_down s reply.term
  else if reply.vote_granted then
    if ¬ (s.role = RaftRole.candidate) then some (s, [])
    else
      let s1 := { s with votes := setInsert reply.vote_from s.votes }
      if voted_has_quorum s1 then become_leader pg s1
      else some (s1, [])
  else some (s, [])

/-- Messages of the worker, src: enum RaftMsg. -/
inductive RaftMsg
  | electionTimeout
  | tryAdvanceCommitIndex (peer_info : TryAdvanceCommitIndexMsg)
  | appendEntries (ask : AppendEntriesAsk)
  | requestVote (ask : RequestVoteAsk)
  | requestVoteResponse (reply : RequestVoteReply)
deriving DecidableEq, Repr

/-- Message dispatch, src: impl Actor for RaftWorker, fn handle. -/
def handle (pg : List PeerId) (crash : Bool) (s : RaftState) :
    RaftMsg → Option (RaftState × List Event)
  | RaftMsg.requestVote ask => handle_request_vote pg s ask
  | RaftMsg.appendEntries ask => handle_append_entries s ask
  | RaftMsg.electionTimeout => start_new_election pg s
  | RaftMsg.tryAdvanceCommitIndex peer_info => try_advance_commit_index crash s peer_info
  | RaftMsg.requestVoteResponse reply => received_vote pg s reply

/-- Fresh state, src: RaftState::new.  All volatile state at its defaults;
the log parameter is the (already durable) content of the raft_log
partition opened in pre_start. -/
def RaftState.init (self_id : PeerId) (cluster_servers : List PeerId)
    (log : List LogEntry) : RaftState :=
  { role := RaftRole.follower
    current_term := 0
    voted_for := none
    leader_id := none
    commit_index := 0
    last_applied := 0
    next_index := []
    match_index := []
    votes := []
    election_timer := false
    replicate_workers := []
    self_id := self_id
    cluster_servers := cluster_servers
    log := log }

/-- State restoration, src: RaftState::restore_state.  Reads the raft_saved
key of the restore partition; a missing record falls back to
RaftSaved::default(), i.e. term 0 and no vote. -/
def restore_state (s : RaftState) (saved : Option RaftSaved) : RaftState :=
  let sv := saved.getD ⟨0, none⟩
  { s with current_term := sv.current_term, voted_for := sv.voted_for }

/-- Worker start-up, src: impl Actor for RaftWorker, fn pre_start.  With the
bootstrap flag the worker assumes the leader role and never reads the saved
state; otherwise it restores it. -/
def pre_start (bootstrap : Bool) (saved : Option RaftSaved) (self_id : PeerId)
    (cluster_servers : List PeerId) (log : List LogEntry) : RaftState :=
  let state := RaftState.init self_id cluster_servers log
  if bootstrap then { state with role := RaftRole.leader }
  else restore_state state saved

/-- Term recorded in the log at a given dense index (indices start at 1);
0 when absent.  The raft_log partition maps key i to list position i - 1. -/
def logTermAt (log : List LogEntry) (i : Nat) : Nat :=
  ((log.getD (i - 1) ⟨0, []⟩).term)

/-- Index of the last log entry; 0 for an empty log (dense indices from 1). -/
def lastLogIndex (log : List LogEntry) : Nat :=
  log.length

/-- Term of the last log entry; 0 for an empty log. -/
def lastLogTerm (log : List LogEntry) : Nat :=
  logTermAt log log.length

/-- Up-to-date comparison of the Raft election restriction: the pair
(candidate last term, candidate last index) is lexicographically at least
the receiver's pair. -/
def logUpToDate (askLastTerm askLastIndex ownLastTerm ownLastIndex : Nat) : Prop :=
  ownLastTerm < askLastTerm ∨ (askLastTerm = ownLastTerm ∧ ownLastIndex ≤ askLastIndex)

instance (a b c d : Nat) : Decidable (logUpToDate a b c d) := by
  unfold logUpToDate; infer_instance

/-- Number of values in a list that are at least n. -/
def countGE (vals : List Nat) (n : Nat) : Nat :=
  vals.countP (fun v => n ≤ v)

/-- Modelled from the claim's words (for the refinement comparison of the
commit-quorum rule): the match index the specification attributes to a
server, the leader itself counted at its last log index, every other server
at its entry of the match_index map (0 when absent). -/
def specEffectiveMatch (s : RaftState) (p : PeerId) : Nat :=
  if p = s.self_id then lastLogIndex s.log
  else ((s.match_index.lookup p).getD 0)

/-- Modelled from the claim's words: the largest N such that a quorum
(floor of half the static membership, plus one) of the static membership
has an effective match index of at least N. -/
def specQuorumIndex (s : RaftState) : Nat :=
  let vals := s.cluster_servers.map (specEffectiveMatch s)
  let quorum := s.cluster_servers.length / 2 + 1
  ((0 :: vals).filter (fun n => quorum ≤ countGE vals n)).foldr max 0

/-- In-memory value of the durable pair after a trace. -/
def memAfter (mem : RaftSaved) : List Event → RaftSaved
  | [] => mem
  | Event.setSaved sv :: rest => memAfter sv rest
  | _ :: rest => memAfter mem rest

/-- Last value flushed to stable storage after a trace. -/
def durAfter (dur : RaftSaved) : List Event → RaftSaved
  | [] => dur
  | Event.persist sv :: rest => durAfter sv rest
  | _ :: rest => durAfter dur rest

/-- Write-before-reply check over a trace: starting from an in-memory value
mem of (current_term, voted_for) and a durable value dur, every send event
must happen at a point where the in-memory pair equals the durable pair. -/
def p1Holds (mem dur : RaftSaved) : List Event → Bool
  | [] => true
  | Event.setSaved sv :: rest => p1Holds sv dur rest
  | Event.persist sv :: rest => p1Holds mem sv rest
  | Event.send _ :: rest => decide (mem = dur) && p1Holds mem dur rest
  | _ :: rest => p1Holds mem dur rest

/-- Predicate that a trace contains no send event. -/
def hasSend : List Event → Bool
  | [] => false
  | Event.send _ :: _ => true
  | _ :: rest => hasSend rest

/-- Convenience base state: peer A of the static three-server cluster
A, B, C, fresh volatile state, empty log. -/
def baseState : RaftState := RaftState.init "A" ["A", "B", "C"] []

/-- Leader of term 2 whose single log entry is from term 1; peer C already
reported match index 1. -/
def c1State : RaftState :=
  { baseState with
    role := RaftRole.leader
    current_term := 2
    match_index := [("C", 1)]
    replicate_workers := ["B", "C"]
    log := [⟨1, []⟩] }

/-- Replication report: peer B has match index 1. -/
def c1Msg : TryAdvanceCommitIndexMsg := ⟨some "B", 1⟩

/-- Result of the C1 run. -/
def c1Out : RaftState × List Event :=
  (try_advance_commit_index false c1State c1Msg).getD (c1State, [])

/-- Follower A of the two-server cluster A, B in term 3 with one log entry
of term 3 and no vote cast. -/
def c2State : RaftState :=
  { baseState with
    cluster_servers := ["A", "B"]
    election_timer := true
    current_term := 3
    log := [⟨3, []⟩] }

/-- Vote request of candidate B for term 3 with an empty log. -/
def c2Ask : RequestVoteAsk := ⟨3, "B", 0, 0⟩

/-- Result of the C2 run. -/
def c2Out : RaftState × List Event :=
  (handle_request_vote ["A", "B"] c2State c2Ask).getD (c2State, [])

/-- Follower in term 1 with an empty log. -/
def c3State : RaftState :=
  { baseState with current_term := 1, election_timer := true }

/-- AppendEntries of the term-1 leader L carrying two entries after an empty
prefix. -/
def c3Ask : AppendEntriesAsk := ⟨1, "L", 0, 0, [(), ()], 2⟩

/-- Result of the C3 run. -/
def c3Out : RaftState × List Event :=
  (handle_append_entries c3State c3Ask).getD (c3State, [])

/-- Follower in term 2 with an empty log. -/
def c4State : RaftState :=
  { baseState with current_term := 2, election_timer := true }

/-- AppendEntries of the term-2 leader L claiming a previous entry at
index 3 of term 2, which the empty local log does not contain. -/
def c4Ask : AppendEntriesAsk := ⟨2, "L", 3, 2, [], 0⟩

/-- Follower in term 5. -/
def c5State : RaftState :=
  { baseState with current_term := 5, election_timer := true }

/-- Stale AppendEntries of term 3 received in term 5. -/
def c5Ask : AppendEntriesAsk := ⟨3, "L", 0, 0, [], 0⟩

/-- Result of the C4 run. -/
def c4Out : RaftState × List Event :=
  (handle_append_entries c4State c4Ask).getD (c4State, [])

/-- Leader A of term 1 with five log entries (last log index 5); peer B
reported match index 5. -/
def c6State : RaftState :=
  { baseState with
    role := RaftRole.leader
    current_term := 1
    match_index := [("B", 5)]
    replicate_workers := ["B", "C"]
    log := [⟨1, []⟩, ⟨1, []⟩, ⟨1, []⟩, ⟨1, []⟩, ⟨1, []⟩] }

/-- Replication report: peer C has match index 3. -/
def c6Msg : TryAdvanceCommitIndexMsg := ⟨some "C", 3⟩

/-- Result of the C6 run. -/
def c6Out : RaftState × List Event :=
  (try_advance_commit_index false c6State c6Msg).getD (c6State, [])

/-- Candidate A of term 5 holding only its own vote. -/
def c7State : RaftState :=
  { baseState with
    role := RaftRole.candidate
    current_term := 5
    votes := ["A"]
    election_timer := true }

/-- Stale vote reply: B granted a vote in old term 3. -/
def c7Reply : RequestVoteReply := ⟨3, true, "B"⟩

/-- Result of the C7 run. -/
def c7Out : RaftState × List Event :=
  (received_vote ["A", "B", "C"] c7State c7Reply).getD (c7State, [])

/-- Follower in a cluster of one, about to time out. -/
def c8SingletonState : RaftState :=
  { (RaftState.init "A" ["A"] []) with election_timer := true }

/-- Result of the singleton election. -/
def c8SingletonOut : RaftState × List Event :=
  (start_new_election ["A"] c8SingletonState).getD (c8SingletonState, [])

/-- Candidate A of term 2 in the three-server cluster holding only its own
vote. -/
def c8CandidateState : RaftState :=
  { baseState with
    role := RaftRole.candidate
    current_term := 2
    votes := ["A"]
    election_timer := true }

/-- Current-term granted vote from B. -/
def c8Reply : RequestVoteReply := ⟨2, true, "B"⟩

/-- Result of the C8 vote-counting run. -/
def c8Out : RaftState × List Event :=
  (received_vote ["A", "B", "C"] c8CandidateState c8Reply).getD (c8CandidateState, [])

/-- Vote-quorum witness state: candidate with two of three votes. -/
def c8QuorumState : RaftState :=
  { baseState with
    role := RaftRole.candidate
    current_term := 2
    votes := ["B", "A"]
    election_timer := true }

/-- Follower receiving a no-vote reply; the handler leaves it untouched. -/
def c9State : RaftState := baseState

/-- Denied vote reply used for the C9 witness. -/
def c9Reply : RequestVoteReply := ⟨0, false, "B"⟩

/-- Predicate that a trace contains neither an in-memory write nor a flush
of the durable pair. -/
def pureEvents : List Event → Bool
  | [] => true
  | Event.setSaved _ :: _ => false
  | Event.persist _ :: _ => false
  | _ :: rest => pureEvents rest

/-- Well-formed handler segment: the write-before-reply check passes when
the segment starts with the durable pair equal to the in-memory pair of the
pre-state, and both pairs end up at the post-state's in-memory pair. -/
def SegOK (s s' : RaftState) (tr : List Event) : Prop :=
  p1Holds (savedOf s) (savedOf s) tr = true ∧
    memAfter (savedOf s) tr = savedOf s' ∧ durAfter (savedOf s) tr = savedOf s'

theorem memAfter_append (a b : List Event) (mem : RaftSaved) :
    memAfter mem (a ++ b) = memAfter (memAfter mem a) b := by
  induction a generalizing mem with
  | nil => rfl
  | cons e rest ih => cases e <;> simp [memAfter, ih]

theorem durAfter_append (a b : List Event) (dur : RaftSaved) :
    durAfter dur (a ++ b) = durAfter (durAfter dur a) b := by
  induction a generalizing dur with
  | nil => rfl
  | cons e rest ih => cases e <;> simp [durAfter, ih]

theorem p1Holds_append (a b : List Event) (mem dur : RaftSaved) :
    p1Holds mem dur (a ++ b)
      = (p1Holds mem dur a && p1Holds (memAfter mem a) (durAfter dur a) b) := by
  induction a generalizing mem dur with
  | nil => simp [p1Holds, memAfter, durAfter]
  | cons e rest ih =>
    cases e <;> simp [p1Holds, memAfter, durAfter, ih, Bool.and_assoc]

theorem SegOK.append {s s1 s2 : RaftState} {a b : List Event}
    (h1 : SegOK s s1 a) (h2 : SegOK s1 s2 b) : SegOK s s2 (a ++ b) := by
  obtain ⟨hp1, hm1, hd1⟩ := h1
  obtain ⟨hp2, hm2, hd2⟩ := h2
  refine ⟨?_, ?_, ?_⟩
  · rw [p1Holds_append, hp1, hm1, hd1, hp2]; rfl
  · rw [memAfter_append, hm1, hm2]
  · rw [durAfter_append, hd1, hd2]

theorem pure_p1 (tr : List Event) (hp : pureEvents tr = true) (d : RaftSaved) :
    p1Holds d d tr = true := by
  induction tr with
  | nil => rfl
  | cons e rest ih => cases e <;> simp_all [pureEvents, p1Holds]

theorem pure_memAfter (tr : List Event) (hp : pureEvents tr = true) (mem : RaftSaved) :
    memAfter mem tr = mem := by
  induction tr with
  | nil => rfl
  | cons e rest ih => cases e <;> simp_all [pureEvents, memAfter]

theorem pure_durAfter (tr : List Event) (hp : pureEvents tr = true) (dur : RaftSaved) :
    durAfter dur tr = dur := by
  induction tr with
  | nil => rfl
  | cons e rest ih => cases e <;> simp_all [pureEvents, durAfter]

theorem segOK_of_pure {s s' : RaftState} {tr : List Event}
    (hp : pureEvents tr = true) (hsv : savedOf s = savedOf s') : SegOK s s' tr :=
  ⟨pure_p1 tr hp _, by rw [pure_memAfter tr hp, hsv], by rw [pure_durAfter tr hp, hsv]⟩

theorem pureEvents_map_send {α : Type} (l : List α) (f : α → Msg) :
    pureEvents (l.map (fun x => Event.send (f x))) = true := by
  induction l with
  | nil => rfl
  | cons x rest ih => simpa [pureEvents] using ih

theorem segOK_write_flush {s s' : RaftState} (hm : savedOf s' = sv) :
    SegOK s s' [Event.setSaved sv, Event.persist sv] := by
  refine ⟨?_, ?_, ?_⟩ <;> simp [p1Holds, memAfter, durAfter, hm]

theorem step_down_segOK {s : RaftState} {t : Nat} {s' : RaftState} {tr : List Event}
    (h : step_down s t = some (s', tr)) : SegOK s s' tr := by
  unfold step_down at h
  by_cases h1 : s.current_term ≤ t
  · rw [if_pos h1] at h
    by_cases h2 : s.current_term < t
    · simp only [if_pos h2, set_election_timer] at h
      split at h <;>
      · injection h with h3
        injection h3 with h4 h5
        subst h4; subst h5
        refine ⟨?_, ?_, ?_⟩ <;> simp [p1Holds, memAfter, durAfter, savedOf]
    · simp only [if_neg h2, set_election_timer] at h
      split at h <;>
      · injection h with h3
        injection h3 with h4 h5
        subst h4; subst h5
        refine ⟨?_, ?_, ?_⟩ <;> simp [p1Holds, memAfter, durAfter, savedOf]
  · rw [if_neg h1] at h
    exact absurd h (by simp)

theorem spawn_replicate_workers_segOK {pg : List PeerId} {s s' : RaftState}
    {tr : List Event} (h : spawn_replicate_workers pg s = some (s', tr)) :
    SegOK s s' tr ∧ s'.role = s.role := by
  unfold spawn_replicate_workers at h
  split at h
  · injection h with h3
    injection h3 with h4 h5
    subst h4; subst h5
    exact ⟨segOK_of_pure (pureEvents_map_send ..) (by simp [savedOf]), rfl⟩
  · exact absurd h (by simp)

theorem become_leader_segOK {pg : List PeerId} {s s' : RaftState} {tr : List Event}
    (h : become_leader pg s = some (s', tr)) :
    SegOK s s' tr ∧ s'.role = RaftRole.leader := by
  unfold become_leader at h
  split at h
  · simp only [unset_election_timer, reset_match_index] at h
    split at h
    · exact absurd h (by simp)
    · next s3 ev heq =>
      injection h with h3
      injection h3 with h4 h5
      subst h4; subst h5
      obtain ⟨hseg, hrole⟩ := spawn_replicate_workers_segOK heq
      refine ⟨?_, by simpa using hrole⟩
      have harr : Event.timerCancel :: ev = [Event.timerCancel] ++ ev := rfl
      rw [harr]
      refine SegOK.append ?_ hseg
      exact segOK_of_pure (by simp [pureEvents]) (by simp [savedOf])
  · exact absurd h (by simp)

theorem pureEvents_request_vote (pg : List PeerId) (s : RaftState) :
    pureEvents (request_vote pg s) = true := by
  unfold request_vote
  exact pureEvents_map_send ..

theorem p1Holds_request_vote (pg : List PeerId) (s : RaftState) (d : RaftSaved) :
    p1Holds d d (request_vote pg s) = true :=
  pure_p1 _ (pureEvents_request_vote ..) d

theorem memAfter_request_vote (pg : List PeerId) (s : RaftState) (mem : RaftSaved) :
    memAfter mem (request_vote pg s) = mem :=
  pure_memAfter _ (pureEvents_request_vote ..) mem

theorem durAfter_request_vote (pg : List PeerId) (s : RaftState) (dur : RaftSaved) :
    durAfter dur (request_vote pg s) = dur :=
  pure_durAfter _ (pureEvents_request_vote ..) dur

theorem start_new_election_segOK {pg : List PeerId} {s s' : RaftState} {tr : List Event}
    (h : start_new_election pg s = some (s', tr)) : SegOK s s' tr := by
  unfold start_new_election at h
  simp only [persist_state, set_election_timer, savedOf] at h
  split at h
  · split at h
    · exact absurd h (by simp)
    · next s6 ev4 heq =>
      injection h with h3
      injection h3 with h4 h5
      subst h4; subst h5
      obtain ⟨⟨hp, hm, hd⟩, _⟩ := become_leader_segOK heq
      simp only [savedOf] at hp hm hd
      refine ⟨?_, ?_, ?_⟩ <;>
        simp [p1Holds_append, memAfter_append, durAfter_append,
          p1Holds, memAfter, durAfter, savedOf, hp, hm, hd]
  · injection h with h3
    injection h3 with h4 h5
    subst h4; subst h5
    refine ⟨?_, ?_, ?_⟩ <;>
      simp [p1Holds_append, memAfter_append, durAfter_append,
        p1Holds, memAfter, durAfter, savedOf,
        p1Holds_request_vote, memAfter_request_vote, durAfter_request_vote]

theorem handle_request_vote_segOK {pg : List PeerId} {s : RaftState} {ask : RequestVoteAsk}
    {s' : RaftState} {tr : List Event}
    (h : handle_request_vote pg s ask = some (s', tr)) : SegOK s s' tr := by
  unfold handle_request_vote at h
  split at h
  · exact absurd h (by simp)
  · next sA ev1 heq1 =>
    have hseg1 : SegOK s sA ev1 := by
      split at heq1
      · exact step_down_segOK heq1
      · injection heq1 with e
        injection e with e1 e2
        subst e1; subst e2
        exact segOK_of_pure rfl rfl
    split at h
    · exact absurd h (by simp)
    · next sF ev2 heq2 =>
      have hseg2 : SegOK sA sF ev2 := by
        split at heq2
        · split at heq2
          · exact absurd heq2 (by simp)
          · next sB eva heqB =>
            simp only [set_election_timer, persist_state, savedOf] at heq2
            injection heq2 with e
            injection e with e1 e2
            subst e1; subst e2
            obtain ⟨hp, hm, hd⟩ := step_down_segOK heqB
            simp only [savedOf] at hp hm hd
            refine ⟨?_, ?_, ?_⟩ <;>
              simp [p1Holds_append, memAfter_append, durAfter_append,
                p1Holds, memAfter, durAfter, savedOf, hp, hm, hd]
        · injection heq2 with e
          injection e with e1 e2
          subst e1; subst e2
          exact segOK_of_pure rfl rfl
      obtain ⟨h1p, h1m, h1d⟩ := hseg1
      obtain ⟨h2p, h2m, h2d⟩ := hseg2
      simp only [savedOf] at h1p h1m h1d h2p h2m h2d
      injection h with e
      injection e with e1 e2
      subst e1; subst e2
      refine ⟨?_, ?_, ?_⟩ <;>
      · split <;>
          simp [p1Holds_append, memAfter_append, durAfter_append,
            p1Holds, memAfter, durAfter, savedOf, h1p, h1m, h1d, h2p, h2m, h2d]

theorem handle_append_entries_segOK {s : RaftState} {ask : AppendEntriesAsk}
    {s' : RaftState} {tr : List Event}
    (h : handle_append_entries s ask = some (s', tr)) : SegOK s s' tr := by
  unfold handle_append_entries at h
  split at h
  · injection h with e
    injection e with e1 e2
    subst e1; subst e2
    exact segOK_of_pure rfl rfl
  · simp only [set_election_timer] at h
    split at h
    · exact absurd h (by simp)
    · next sA ev1 heqA =>
      obtain ⟨hp, hm, hd⟩ := step_down_segOK heqA
      simp only [savedOf] at hp hm hd
      split at h
      · exact absurd h (by simp)
      · next sC heqC =>
        injection h with e
        injection e with e1 e2
        subst e1; subst e2
        have hsv : sC.current_term = sA.current_term ∧ sC.voted_for = sA.voted_for := by
          split at heqC
          · injection heqC with e3
            subst e3
            exact ⟨rfl, rfl⟩
          · split at heqC
            · injection heqC with e3
              subst e3
              exact ⟨rfl, rfl⟩
            · exact absurd heqC (by simp)
        refine ⟨?_, ?_, ?_⟩ <;>
          simp [p1Holds_append, memAfter_append, durAfter_append,
            p1Holds, memAfter, durAfter, savedOf, hp, hm, hd, hsv.1, hsv.2]

theorem received_vote_segOK {pg : List PeerId} {s : RaftState} {reply : RequestVoteReply}
    {s' : RaftState} {tr : List Event}
    (h : received_vote pg s reply = some (s', tr)) : SegOK s s' tr := by
  unfold received_vote at h
  split at h
  · exact step_down_segOK h
  · split at h
    · split at h
      · injection h with e
        injection e with e1 e2
        subst e1; subst e2
        exact segOK_of_pure rfl rfl
      · simp only [] at h
        split at h
        · obtain ⟨hseg, _⟩ := become_leader_segOK h
          obtain ⟨hp, hm, hd⟩ := hseg
          simp only [savedOf] at hp hm hd
          exact ⟨hp, hm, hd⟩
        · injection h with e
          injection e with e1 e2
          subst e1; subst e2
          exact segOK_of_pure rfl rfl
    · injection h with e
      injection e with e1 e2
      subst e1; subst e2
      exact segOK_of_pure rfl rfl

theorem try_advance_commit_index_segOK {crash : Bool} {s : RaftState}
    {peer_info : TryAdvanceCommitIndexMsg} {s' : RaftState} {tr : List Event}
    (h : try_advance_commit_index crash s peer_info = some (s', tr)) : SegOK s s' tr := by
  unfold try_advance_commit_index at h
  split at h
  · exact absurd h (by simp)
  · split at h
    · injection h with e
      injection e with e1 e2
      subst e1; subst e2
      exact segOK_of_pure rfl rfl
    · split at h <;> simp only [notify_state_change] at h <;> split at h <;>
      · injection h with e
        injection e with e1 e2
        subst e1; subst e2
        refine segOK_of_pure ?_ (by simp [savedOf])
        first
        | rfl
        | exact pureEvents_map_send ..

/-- Claim C9: in every handler, any change to the pair
(current_term, voted_for) is flushed to stable storage with full sync
before any outbound message (RPC ask, RPC reply, or message to a linked
worker) is sent: at every send event in the handler's trace, the in-memory
pair equals the last flushed pair, starting from a durable pre-state. -/
theorem c9_write_before_send (pg : List PeerId) (crash : Bool) (s : RaftState)
    (msg : RaftMsg) (s' : RaftState) (tr : List Event)
    (h : handle pg crash s msg = some (s', tr)) :
    p1Holds (savedOf s) (savedOf s) tr = true := by
  cases msg with
  | requestVote ask => exact (handle_request_vote_segOK h).1
  | appendEntries ask => exact (handle_append_entries_segOK h).1
  | electionTimeout => exact (start_new_election_segOK h).1
  | tryAdvanceCommitIndex peer_info => exact (try_advance_commit_index_segOK h).1
  | requestVoteResponse reply => exact (received_vote_segOK h).1

/-- Witness for C9 at a concrete input: the follower c9State processing a
denied vote reply produces the empty trace, which passes the check. -/
theorem c9_write_before_send_witness :
    p1Holds (savedOf c9State) (savedOf c9State) [] = true :=
  c9_write_before_send [] false c9State (RaftMsg.requestVoteResponse c9Reply)
    c9State [] (by decide)

theorem countGE_append (a b : List Nat) (n : Nat) :
    countGE (a ++ b) n = countGE a n + countGE b n := by
  unfold countGE
  exact List.countP_append ..

theorem countGE_perm {a b : List Nat} (h : List.Perm a b) (n : Nat) :
    countGE a n = countGE b n :=
  h.countP_eq _

theorem sorted_drop_all_ge (v : List Nat) (hs : List.Sorted (· ≤ ·) v)
    (i : Nat) (hi : i < v.length) : ∀ y ∈ v.drop i, v[i] ≤ y := by
  have hd : v.drop i = v[i] :: v.drop (i + 1) := List.drop_eq_getElem_cons hi
  have hsd : List.Sorted (· ≤ ·) (v.drop i) := hs.sublist (List.drop_sublist i v)
  rw [hd] at hsd
  intro y hy
  rw [hd] at hy
  rcases List.mem_cons.mp hy with h1 | h2
  · exact h1 ▸ le_refl _
  · exact List.rel_of_sorted_cons hsd y h2

theorem sorted_take_all_le (v : List Nat) (hs : List.Sorted (· ≤ ·) v)
    (i : Nat) (hi : i < v.length) : ∀ y ∈ v.take (i + 1), y ≤ v[i] := by
  intro y hy
  obtain ⟨j, hj, hyj⟩ := List.mem_iff_getElem.mp hy
  have hjlen : j < v.length := by
    have := List.length_take (i + 1) v
    omega
  have hji : j ≤ i := by
    have := List.length_take (i + 1) v
    omega
  have hget : (v.take (i + 1))[j] = v[j] := List.getElem_take ..
  have hrel : v.get ⟨j, hjlen⟩ ≤ v.get ⟨i, hi⟩ :=
    hs.rel_get_of_le (Fin.mk_le_mk.mpr hji)
  simp only [List.get_eq_getElem] at hrel
  rw [← hyj, hget]
  exact hrel

theorem countGE_sorted_lower (v : List Nat) (hs : List.Sorted (· ≤ ·) v)
    (i : Nat) (hi : i < v.length) :
    v.length - i ≤ countGE v (v[i]) := by
  have hsplit : v.take i ++ v.drop i = v := List.take_append_drop i v
  have hgen : ∀ n, countGE v n = countGE (v.take i) n + countGE (v.drop i) n := by
    intro n
    conv_lhs => rw [← hsplit]
    exact countGE_append ..
  have h1 := hgen (v[i])
  have h2 : countGE (v.drop i) (v[i]) = (v.drop i).length := by
    unfold countGE
    refine List.countP_eq_length.2 ?_
    intro a ha
    simpa using sorted_drop_all_ge v hs i hi a ha
  have h3 : (v.drop i).length = v.length - i := List.length_drop ..
  omega

theorem countGE_sorted_upper (v : List Nat) (hs : List.Sorted (· ≤ ·) v)
    (i : Nat) (hi : i < v.length) (m : Nat) (hm : v[i] < m) :
    countGE v m ≤ v.length - (i + 1) := by
  have hsplit : v.take (i + 1) ++ v.drop (i + 1) = v := List.take_append_drop (i + 1) v
  have hgen : ∀ n, countGE v n = countGE (v.take (i + 1)) n + countGE (v.drop (i + 1)) n := by
    intro n
    conv_lhs => rw [← hsplit]
    exact countGE_append ..
  have h1 := hgen m
  have h2 : countGE (v.take (i + 1)) m = 0 := by
    unfold countGE
    refine List.countP_eq_zero.2 ?_
    intro a ha
    have hle : a ≤ v[i] := sorted_take_all_le v hs i hi a ha
    simp
    omega
  have h3 : countGE (v.drop (i + 1)) m ≤ (v.drop (i + 1)).length :=
    List.countP_le_length _
  have h4 : (v.drop (i + 1)).length = v.length - (i + 1) := List.length_drop ..
  omega

/-- Claim C6 (amended): the quorum index the leader computes is the lower
median of the match_index values currently in the map — the reported remote
peers only; the leader's own last log index is not consulted.  Stated as:
a majority of the map's values are at least the computed index, and this
fails for any larger index. -/
theorem c6_quorum_is_lower_median_of_reports (s : RaftState)
    (h : s.match_index ≠ []) :
    (s.match_index.map Prod.snd).length / 2 + 1
        ≤ countGE (s.match_index.map Prod.snd) (min_quorum_match_index s) ∧
      countGE (s.match_index.map Prod.snd) (min_quorum_match_index s + 1)
        < (s.match_index.map Prod.snd).length / 2 + 1 := by
  have hne : (s.match_index.map Prod.snd) ≠ [] := by
    simpa using h
  have hperm : List.Perm (List.insertionSort (· ≤ ·) (s.match_index.map Prod.snd))
      (s.match_index.map Prod.snd) := List.perm_insertionSort _ _
  have hsorted : List.Sorted (· ≤ ·)
      (List.insertionSort (· ≤ ·) (s.match_index.map Prod.snd)) :=
    List.sorted_insertionSort _ _
  have hlen : (List.insertionSort (· ≤ ·) (s.match_index.map Prod.snd)).length
      = (s.match_index.map Prod.snd).length := hperm.length_eq
  have hk1 : 1 ≤ (s.match_index.map Prod.snd).length := by
    have := List.length_pos.mpr hne
    omega
  have hilt : ((List.insertionSort (· ≤ ·) (s.match_index.map Prod.snd)).length - 1) / 2
      < (List.insertionSort (· ≤ ·) (s.match_index.map Prod.snd)).length := by
    omega
  have hmq : min_quorum_match_index s
      = (List.insertionSort (· ≤ ·) (s.match_index.map Prod.snd))[
          ((List.insertionSort (· ≤ ·) (s.match_index.map Prod.snd)).length - 1) / 2] := by
    unfold min_quorum_match_index
    rw [if_neg (by simp [h])]
    exact List.getD_eq_getElem _ 0 hilt
  have hlow := countGE_sorted_lower _ hsorted _ hilt
  have hup := countGE_sorted_upper _ hsorted _ hilt
    ((List.insertionSort (· ≤ ·) (s.match_index.map Prod.snd))[
        ((List.insertionSort (· ≤ ·) (s.match_index.map Prod.snd)).length - 1) / 2] + 1)
    (by omega)
  rw [hmq]
  rw [← countGE_perm hperm, ← countGE_perm hperm (_ + 1)]
  omega

theorem setInsert_length_pos (x : PeerId) (l : List PeerId) :
    1 ≤ (setInsert x l).length := by
  unfold setInsert
  split
  · next hmem =>
    have := List.length_pos.mpr (List.ne_nil_of_mem hmem)
    omega
  · simp

/-- Claim C1: the leader is claimed to advance commit_index to the quorum
index N only when N exceeds commit_index and log[N].term equals
current_term.  The code checks only N > commit_index: at this input the
leader of term 2 advances commit_index to 1 although the entry at index 1
is from term 1 — the mandatory term guard is a TODO in the source. -/
theorem c1_commit_advances_without_term_guard :
    try_advance_commit_index false c1State c1Msg = some c1Out ∧
    c1State.commit_index = 0 ∧ c1Out.1.commit_index = 1 ∧
    logTermAt c1State.log 1 = 1 ∧ c1State.current_term = 2 := by decide

/-- Claim C2: the receiver is claimed to grant its vote only when the
candidate's log is at least as up-to-date as its own.  At this input the
receiver's last log term is 3, the candidate's last log pair is (0, 0) —
not up-to-date — yet the vote is granted and recorded: the source's log
comparison is a TODO. -/
theorem c2_vote_granted_without_up_to_date_check :
    handle_request_vote ["A", "B"] c2State c2Ask = some c2Out ∧
    c2State.voted_for = none ∧ c2Ask.term = c2State.current_term ∧
    ¬ logUpToDate c2Ask.last_log_term c2Ask.last_log_index
        (lastLogTerm c2State.log) (lastLogIndex c2State.log) ∧
    c2Out.1.voted_for = some "B" ∧
    Event.send (Msg.requestVoteReply "B" ⟨3, true, "A"⟩) ∈ c2Out.2 := by decide

/-- Claim C3: an accepted AppendEntries is claimed to write the carried
entries into the follower's log durably before the success reply.  At this
input the ask carries two entries, the handler replies success = true, and
the log is untouched: the source never stores entries (storing is a TODO;
the wire type of the entries is even the unit type). -/
theorem c3_entries_not_stored :
    handle_append_entries c3State c3Ask = some c3Out ∧
    c3Ask.entries.length = 2 ∧
    c3Out.1.log = c3State.log ∧
    lastLogIndex c3Out.1.log = 0 ∧
    Event.send (Msg.appendEntriesReply ⟨1, true⟩) ∈ c3Out.2 := by decide

/-- Claim C4: an AppendEntries whose prev_log_index is absent from the
local log is claimed to be answered with {current_term, false}.  At this
input prev_log_index is 3, the local log is empty, yet the handler replies
success = true: the consistency check is a TODO in the source. -/
theorem c4_no_consistency_check :
    handle_append_entries c4State c4Ask = some c4Out ∧
    c4Ask.prev_log_index = 3 ∧ lastLogIndex c4State.log = 0 ∧
    Event.send (Msg.appendEntriesReply ⟨2, true⟩) ∈ c4Out.2 ∧
    Event.send (Msg.appendEntriesReply ⟨2, false⟩) ∉ c4Out.2 := by decide

/-- Claim C5 counterexample: on a stale-term AppendEntries the handler
returns with the state untouched but sends nothing at all — the trace is
empty, so no reply carrying {current_term, false} is sent, contrary to the
claim's reply requirement. -/
theorem c5_stale_append_entries_counterexample :
    handle_append_entries c5State c5Ask = some (c5State, []) ∧
    Event.send (Msg.appendEntriesReply ⟨c5State.current_term, false⟩)
      ∉ ([] : List Event) := by decide

/-- Claim C5 (amended): on an AppendEntries with a stale term the receiver
returns with all of its state unchanged, but no reply is sent — the reply
port is dropped, so the sender observes a failed call instead of a
{current_term, false} reply. -/
theorem c5_stale_append_entries_ignored (s : RaftState) (ask : AppendEntriesAsk)
    (h : ask.term < s.current_term) :
    handle_append_entries s ask = some (s, []) := by
  unfold handle_append_entries
  rw [if_pos h]

/-- Witness for the amended C5 at a concrete input. -/
theorem c5_stale_append_entries_ignored_witness :
    c5Ask.term < c5State.current_term ∧
    handle_append_entries c5State c5Ask = some (c5State, []) :=
  ⟨by decide, c5_stale_append_entries_ignored c5State c5Ask (by decide)⟩

/-- Claim C6 counterexample: with the leader's last log index 5 and
reported match indices B at 5 and C at 3, the claim's formula (median_high
with the leader counted at its last log index) yields 5, but the code
computes 3 — it takes the lower median of the two reported values only. -/
theorem c6_quorum_counterexample :
    try_advance_commit_index false c6State c6Msg = some c6Out ∧
    lastLogIndex c6Out.1.log = 5 ∧
    min_quorum_match_index c6Out.1 = 3 ∧ c6Out.1.commit_index = 3 ∧
    specQuorumIndex c6Out.1 = 5 ∧
    ¬ min_quorum_match_index c6Out.1 = specQuorumIndex c6Out.1 := by decide

/-- Witness for the amended C6 at a concrete input. -/
theorem c6_quorum_is_lower_median_of_reports_witness :
    c6State.match_index ≠ [] ∧
    ((c6State.match_index.map Prod.snd).length / 2 + 1
        ≤ countGE (c6State.match_index.map Prod.snd) (min_quorum_match_index c6State) ∧
      countGE (c6State.match_index.map Prod.snd) (min_quorum_match_index c6State + 1)
        < (c6State.match_index.map Prod.snd).length / 2 + 1) :=
  ⟨by decide, c6_quorum_is_lower_median_of_reports c6State (by decide)⟩

/-- Claim C7: a RequestVote reply carrying a stale term is claimed to be
dropped.  At this input the candidate of term 5 receives a granted reply
of old term 3, counts it, and even becomes leader on its strength: the
source only compares the reply term for the step-down direction. -/
theorem c7_stale_vote_counted :
    received_vote ["A", "B", "C"] c7State c7Reply = some c7Out ∧
    c7Reply.term < c7State.current_term ∧ c7State.role = RaftRole.candidate ∧
    "B" ∈ c7Out.1.votes ∧ c7Out.1.role = RaftRole.leader := by decide

/-- Claim C8: a candidate becomes leader exactly when the granted votes
reach floor(N/2) + 1 of the static membership size N; with N = 1 the
election completes immediately.  Stated as: the quorum test agrees with
the arithmetic formula whenever at least one vote is held; a singleton
election ends as leader at once; and a granted current-term vote makes the
candidate leader exactly when the inserted vote set reaches the formula. -/
theorem c8_leader_election_quorum :
    (∀ s : RaftState, s.votes ≠ [] →
        (voted_has_quorum s = true ↔
          s.cluster_servers.length / 2 + 1 ≤ s.votes.length))
    ∧ (∀ (pg : List PeerId) (s : RaftState) (out : RaftState × List Event),
        s.cluster_servers.length = 1 → start_new_election pg s = some out →
          out.1.role = RaftRole.leader)
    ∧ (∀ (pg : List PeerId) (s : RaftState) (r : RequestVoteReply)
        (out : RaftState × List Event),
        s.role = RaftRole.candidate → ¬ s.current_term < r.term →
        r.vote_granted = true → received_vote pg s r = some out →
          (out.1.role = RaftRole.leader ↔
            s.cluster_servers.length / 2 + 1
              ≤ (setInsert r.vote_from s.votes).length)) := by
  refine ⟨?_, ?_, ?_⟩
  · intro s h
    unfold voted_has_quorum
    by_cases hc : s.cluster_servers.length = 1
    · have := List.length_pos.mpr h
      simp [hc]
      omega
    · simp [hc]
  · intro pg s out hlen hrun
    unfold start_new_election at hrun
    simp only [persist_state, set_election_timer] at hrun
    split at hrun
    · split at hrun
      · exact absurd hrun (by simp)
      · next s6 ev4 heq =>
        injection hrun with e
        obtain ⟨_, hrole⟩ := become_leader_segOK heq
        rw [← e]
        exact hrole
    · next hq =>
      exact absurd (by simp [voted_has_quorum, hlen]) hq
  · intro pg s r out hrole hterm hgrant hrun
    unfold received_vote at hrun
    rw [if_neg (show ¬ r.term > s.current_term from hterm)] at hrun
    rw [if_pos hgrant] at hrun
    rw [if_neg (show ¬ ¬ s.role = RaftRole.candidate from not_not_intro hrole)] at hrun
    have hrun' :
        (if voted_has_quorum { s with votes := setInsert r.vote_from s.votes } = true
          then become_leader pg { s with votes := setInsert r.vote_from s.votes }
          else some ({ s with votes := setInsert r.vote_from s.votes }, []))
          = some out := hrun
    by_cases hq : voted_has_quorum { s with votes := setInsert r.vote_from s.votes } = true
    · rw [if_pos hq] at hrun'
      obtain ⟨_, hl⟩ := become_leader_segOK hrun'
      simp only [hl, true_iff]
      revert hq
      unfold voted_has_quorum
      by_cases hc : s.cluster_servers.length = 1
      · intro _
        have := setInsert_length_pos r.vote_from s.votes
        simp [hc]
        omega
      · intro hq
        simp [hc] at hq
        simpa using hq
    · rw [if_neg hq] at hrun'
      injection hrun' with e
      rw [← e]
      constructor
      · intro hcontra
        simp [hrole] at hcontra
      · intro hge
        exfalso
        apply hq
        unfold voted_has_quorum
        by_cases hc : s.cluster_servers.length = 1
        · simp [hc]
        · simp [hc]
          omega

/-- Witness for C8 at concrete inputs: a two-of-three vote set passes the
formula, the singleton election ends as leader, and a granted current-term
vote completes a three-server election. -/
theorem c8_leader_election_quorum_witness :
    (voted_has_quorum c8QuorumState = true ↔
      c8QuorumState.cluster_servers.length / 2 + 1 ≤ c8QuorumState.votes.length) ∧
    c8SingletonOut.1.role = RaftRole.leader ∧
    (c8Out.1.role = RaftRole.leader ↔
      c8CandidateState.cluster_servers.length / 2 + 1
        ≤ (setInsert c8Reply.vote_from c8CandidateState.votes).length) :=
  ⟨c8_leader_election_quorum.1 c8QuorumState (by decide),
   c8_leader_election_quorum.2.1 ["A"] c8SingletonState c8SingletonOut (by decide) (by decide),
   c8_leader_election_quorum.2.2 ["A", "B", "C"] c8CandidateState c8Reply c8Out
     (by decide) (by decide) (by decide) (by decide)⟩

/-- Claim C10: a peer started with the bootstrap flag never reads the
persisted pair: it starts as Leader with current_term 0 and voted_for
none, whatever the restore partition holds; a non-bootstrap start restores
the saved pair and stays Follower. -/
theorem c10_bootstrap_ignores_saved_state :
    ∀ (sv : RaftSaved) (self : PeerId) (servers : List PeerId) (log : List LogEntry),
      (pre_start true (some sv) self servers log).role = RaftRole.leader ∧
      (pre_start true (some sv) self servers log).current_term = 0 ∧
      (pre_start true (some sv) self servers log).voted_for = none ∧
      (pre_start false (some sv) self servers log).role = RaftRole.follower ∧
      (pre_start false (some sv) self servers log).current_term = sv.current_term ∧
      (pre_start false (some sv) self servers log).voted_for = sv.voted_for := by
  intro sv self servers log
  refine ⟨rfl, rfl, rfl, rfl, ?_, ?_⟩ <;>
    simp [pre_start, restore_state, RaftState.init]
